import Mathlib

/-!
# Verification of the CHIMERA live data recorder backend

Shallow embedding of `src/backend/betfair_client.py`, `src/backend/recorder.py`
and `src/backend/gcs_writer.py`, together with proofs about the behaviour the
specification claims.

Modelling conventions:
* Python `dict` fields accessed with `.get(k, default)` become `Option` fields
  read with `Option.getD`.
* Python insertion-ordered dicts used as keyed stores become association lists
  (`List (String × α)`) with `dget`/`dset`; `dset` keeps the original position
  of an existing key and appends a new key at the end, like a Python dict.
* Network and clock effects are passed in explicitly (a `CycleEnv` record of
  the results the outside world returns during one poll cycle); wall-clock
  timestamps inside log entries are not modelled (no claim mentions them).
* Machine integers do not overflow in any of the modelled code paths
  (counters only grow by small increments), so counters are `Nat`.
-/

namespace Chimera

/-! ## Batch planner (`betfair_client.py`, lines 28-64) -/

/-- `PRICE_WEIGHTS` table (betfair_client.py lines 30-36). -/
def PRICE_WEIGHTS : List (String × Nat) :=
  [("EX_BEST_OFFERS", 5), ("EX_ALL_OFFERS", 17), ("EX_TRADED", 17),
   ("SP_AVAILABLE", 3), ("SP_TRADED", 7)]

/-- `PRICE_WEIGHTS.get(p)` — dictionary lookup. -/
def priceWeight? (p : String) : Option Nat :=
  (PRICE_WEIGHTS.find? (fun q => q.1 == p)).map (fun q => q.2)

/-- `COMBINED_WEIGHTS` (betfair_client.py lines 38-41), in dict insertion
order, which is the iteration order of `COMBINED_WEIGHTS.items()`. -/
def COMBINED_WEIGHTS : List (List String × Nat) :=
  [(["EX_BEST_OFFERS", "EX_TRADED"], 20), (["EX_ALL_OFFERS", "EX_TRADED"], 32)]

def MAX_REQUEST_WEIGHT : Nat := 200

/-- The `for combo, weight in COMBINED_WEIGHTS.items()` loop of
`calculate_batch_size` (lines 53-58), extracted as the total cost it computes
when some combo is a subset of the requested set (the loop returns on the
first match).  `data_set` is the deduplicated requested set
(`frozenset(price_data)`). -/
def comboTotal : List (List String × Nat) → List String → Option Nat
  | [], _ => none
  | (combo, weight) :: rest, data_set =>
    if combo.all (fun p => data_set.contains p) then
      -- remaining = data_set - combo; weights default to 0 here
      some (weight +
        ((data_set.filter (fun p => ¬ combo.contains p)).map
          (fun p => (priceWeight? p).getD 0)).sum)
    else comboTotal rest data_set

/-- The total cost computed by `calculate_batch_size` (lines 50-63): the
combo-loop total if a combo matched, otherwise the sum of individual weights
over the *list* `price_data` (unknown fields default to 2), with a zero total
replaced by 2.  Both return points of the Python function are
`max(1, MAX_REQUEST_WEIGHT // total)` applied to this total. -/
def total_cost (price_data : List String) : Nat :=
  let data_set := price_data.eraseDups
  match comboTotal COMBINED_WEIGHTS data_set with
  | some t => t
  | none =>
    let t := (price_data.map (fun p => (priceWeight? p).getD 2)).sum
    if t = 0 then 2 else t

/-- `calculate_batch_size` (betfair_client.py lines 45-64). -/
def calculate_batch_size (price_data : List String) : Nat :=
  max 1 (MAX_REQUEST_WEIGHT / total_cost price_data)

/-- Modelled from the spec's words for claim C2 (the claim's own description
of the algorithm, for refinement comparison): in the combo branch, remaining
fields with no individual weight count **2**. -/
def claim_total_cost (price_data : List String) : Nat :=
  let data_set := price_data.eraseDups
  match COMBINED_WEIGHTS.find? (fun cw => cw.1.all (fun p => data_set.contains p)) with
  | some cw => cw.2 +
      ((data_set.filter (fun p => ¬ cw.1.contains p)).map
        (fun p => (priceWeight? p).getD 2)).sum
  | none =>
    let t := (price_data.map (fun p => (priceWeight? p).getD 2)).sum
    if t = 0 then 2 else t

/-- Batch size as described by claim C2 verbatim. -/
def claim_batch_size (price_data : List String) : Nat :=
  max 1 (200 / claim_total_cost price_data)

/-- Claim C2 amended: identical to the claim's description except that a
remaining field with no individual weight counts **0** in the combo branch. -/
def amended_total_cost (price_data : List String) : Nat :=
  let data_set := price_data.eraseDups
  match COMBINED_WEIGHTS.find? (fun cw => cw.1.all (fun p => data_set.contains p)) with
  | some cw => cw.2 +
      ((data_set.filter (fun p => ¬ cw.1.contains p)).map
        (fun p => (priceWeight? p).getD 0)).sum
  | none =>
    let t := (price_data.map (fun p => (priceWeight? p).getD 2)).sum
    if t = 0 then 2 else t

/-! ## Betfair client session state (`betfair_client.py`, lines 67-133) -/

/-- The fields of `BetfairClient` relevant to session management. -/
structure Client where
  app_key : String
  ssoid : String
  last_keepalive : Option Nat
  session_valid : Bool
deriving DecidableEq, Repr

/-- What the network returns to one `keepalive` call: an HTTP response whose
JSON `status` field may or may not be `"SUCCESS"`, or an exception (timeout,
connection error, malformed body). -/
inductive KeepaliveNet where
  | resp (success : Bool)
  | exc
deriving DecidableEq, Repr

/-- `BetfairClient.keepalive` (lines 95-117): returns the updated client and
the boolean result.  `now` is the current time used for `_last_keepalive`. -/
def keepalive (c : Client) (net : KeepaliveNet) (now : Nat) : Client × Bool :=
  if c.ssoid = "" then (c, false)
  else
    match net with
    | .resp true => ({ c with last_keepalive := some now, session_valid := true }, true)
    | .resp false => ({ c with session_valid := false }, false)
    | .exc => (c, false)   -- the except-branch only logs; session_valid untouched

/-! ## GCS writer (`gcs_writer.py`, lines 48-185) -/

/-- Configuration fields of `GCSWriter`.  The stored `_enabled` flag is set to
`bool(bucket_name)` both in `__init__` and in `update_config` and is never
written elsewhere, so it is modelled as the derived predicate `enabled`. -/
structure Writer where
  project_id : String
  bucket_name : String
  base_path : String
  event_type_id : String
deriving DecidableEq, Repr

def Writer.is_configured (w : Writer) : Bool :=
  w.bucket_name ≠ "" && w.project_id ≠ ""

def Writer.enabled (w : Writer) : Bool :=
  w.bucket_name ≠ ""

/-- `GCSWriter._build_path` (lines 97-108); `date` and `time` stand for the
already-formatted `strftime` components of the timestamp. -/
def build_path (w : Writer) (data_type date time : String) : String :=
  w.base_path ++ "/" ++ w.event_type_id ++ "/" ++ date ++ "/" ++
    data_type ++ "/" ++ time ++ ".ndjson"

/-- Outcome of the actual `blob.upload_from_file` network call. -/
inductive UploadOutcome where
  | ok
  | err
deriving DecidableEq, Repr

/-- `GCSWriter.write_ndjson` (lines 110-173).  Returns the object path on
success (`None` otherwise) together with a trace flag recording whether an
upload to storage was attempted at all.  The writer's private `_write_count`,
`_error_count` counters are not modelled (no claim mentions them). -/
def write_ndjson (w : Writer) (data_type : String) (records : List α)
    (date time : String) (upload : UploadOutcome) : Option String × Bool :=
  if ¬ w.enabled ∨ ¬ w.is_configured then (none, false)
  else if records.isEmpty then (none, false)
  else
    match upload with
    | .ok => (some (build_path w data_type date time), true)
    | .err => (none, true)

/-- `GCSWriter.write_catalogue` (lines 175-179). -/
def write_catalogue (w : Writer) (markets : List α) (date time : String)
    (upload : UploadOutcome) : Option String × Bool :=
  write_ndjson w "catalogue" markets date time upload

/-- `GCSWriter.write_books` (lines 181-185). -/
def write_books (w : Writer) (books : List α) (date time : String)
    (upload : UploadOutcome) : Option String × Bool :=
  write_ndjson w "books" books date time upload

/-! ## Association-list model of Python dicts -/

/-- Python `d.get(k)`. -/
def dget (l : List (String × α)) (k : String) : Option α :=
  (l.find? (fun p => p.1 == k)).map (fun p => p.2)

/-- Python `d[k] = v`: overwrite in place if the key exists (keeping its
position, as insertion-ordered dicts do), otherwise append. -/
def dset (l : List (String × α)) (k : String) (v : α) : List (String × α) :=
  if l.any (fun p => p.1 == k) then
    l.map (fun p => if p.1 == k then (k, v) else p)
  else l ++ [(k, v)]

/-! ## Recorder engine data model (`recorder.py`) -/

/-- The fields of a catalogue entry that `recorder.py` reads.  `marketId` is
accessed both with `.get` (line 242) and by direct subscript (line 256, which
requires the key), so it is a required field; the others are read with `.get`
defaults.  Only the length of `runners` is used. -/
structure Market where
  marketId : String
  marketName : Option String
  marketStartTime : Option String
  eventVenue : Option String
  eventName : Option String
  runners : Option Nat
deriving DecidableEq, Repr

/-- The fields of a market book that `recorder.py` reads (lines 265-274),
each via `.get` with a default. -/
structure Book where
  marketId : Option String
  status : Option String
  inPlay : Option Bool
  totalMatched : Option Int
deriving DecidableEq, Repr

/-- One `_market_index` entry (lines 243-251 create it; lines 269-274 add the
`inPlay`/`totalMatched` keys when a book arrives, hence those are `Option`). -/
structure MarketSummary where
  marketId : String
  marketName : String
  marketStartTime : String
  venue : String
  event : String
  runners : Nat
  status : String
  inPlay : Option Bool
  totalMatched : Option Int
deriving DecidableEq, Repr

/-- The index entry built at lines 243-251. -/
def mkSummary (m : Market) : MarketSummary :=
  { marketId := m.marketId
    marketName := m.marketName.getD ""
    marketStartTime := m.marketStartTime.getD ""
    venue := m.eventVenue.getD ""
    event := m.eventName.getD ""
    runners := m.runners.getD 0
    status := "OPEN"
    inPlay := none
    totalMatched := none }

/-- `self.stats` (lines 75-82). -/
structure Stats where
  total_polls : Nat
  total_markets_recorded : Nat
  total_books_recorded : Nat
  total_gcs_writes : Nat
  gcs_errors : Nat
  api_errors : Nat
deriving DecidableEq, Repr

def Stats.init : Stats :=
  { total_polls := 0, total_markets_recorded := 0, total_books_recorded := 0
    total_gcs_writes := 0, gcs_errors := 0, api_errors := 0 }

/-- Engine `self.status` values. -/
inductive EngStatus where
  | STOPPED
  | STARTING
  | RUNNING
  | POLLING
  | WRITING
  | AUTH_ERROR
deriving DecidableEq, Repr

/-- One `self.activity_log` entry; the wall-clock timestamp stored alongside
is not modelled. -/
structure LogEntry where
  level : String
  message : String
deriving DecidableEq, Repr

/-- `config.recorder` fields the engine reads. -/
structure RecorderConfig where
  countries : List String
  market_types : List String
  catalogue_projections : List String
  price_projection : List String
  poll_interval_seconds : Nat
deriving DecidableEq, Repr

/-- The engine state mutated by `_poll_cycle`, `_check_day_rollover`,
`_load_state`.  Error entries keep only their message (the recorded timestamp
is untouched by every claim). -/
structure EngineState where
  config : RecorderConfig
  writer : Writer
  status : EngStatus
  day_started : String
  poll_count : Nat
  last_poll : Option String
  last_catalogue_path : Option String
  last_books_path : Option String
  errors : List String
  activity_log : List LogEntry
  catalogue_cache : List Market
  books_cache : List (String × Book)
  market_index : List (String × MarketSummary)
  stats : Stats
deriving DecidableEq, Repr

/-- `RecorderEngine._log` (lines 458-466): append, then trim to the last 250
entries once the log exceeds 500. -/
def log_entry (s : EngineState) (msg level : String) : EngineState :=
  let l := s.activity_log ++ [⟨level, msg⟩]
  { s with activity_log := if l.length > 500 then l.drop (l.length - 250) else l }

/-- `RecorderEngine._add_error` (lines 468-478): log at level error, append to
`errors`, trim to the last 100 once it exceeds 200. -/
def add_error (s : EngineState) (msg : String) : EngineState :=
  let s := log_entry s msg "error"
  let e := s.errors ++ [msg]
  { s with errors := if e.length > 200 then e.drop (e.length - 100) else e }

/-! ## Persisted cycle state (`recorder.py`, lines 417-456) -/

/-- The parsed JSON of the state file, as read back by `_load_state`.  Every
field is read with `.get`, so each is optional.  The `saved_at` timestamp is
never read back and is not modelled. -/
structure StatsPartial where
  total_polls : Option Nat
  total_markets_recorded : Option Nat
  total_books_recorded : Option Nat
  total_gcs_writes : Option Nat
  gcs_errors : Option Nat
  api_errors : Option Nat
deriving DecidableEq, Repr

def StatsPartial.empty : StatsPartial :=
  { total_polls := none, total_markets_recorded := none
    total_books_recorded := none, total_gcs_writes := none
    gcs_errors := none, api_errors := none }

/-- `{**self.stats, **data.get("stats", {})}` (line 449): dict merge where the
loaded keys win. -/
def mergeStats (s : Stats) (p : StatsPartial) : Stats :=
  { total_polls := p.total_polls.getD s.total_polls
    total_markets_recorded := p.total_markets_recorded.getD s.total_markets_recorded
    total_books_recorded := p.total_books_recorded.getD s.total_books_recorded
    total_gcs_writes := p.total_gcs_writes.getD s.total_gcs_writes
    gcs_errors := p.gcs_errors.getD s.gcs_errors
    api_errors := p.api_errors.getD s.api_errors }

structure PersistedState where
  day_started : Option String
  poll_count : Option Nat
  last_poll : Option String
  stats : Option StatsPartial
  errors : Option (List String)
  status : Option EngStatus
deriving DecidableEq, Repr

def statsToPartial (s : Stats) : StatsPartial :=
  { total_polls := some s.total_polls
    total_markets_recorded := some s.total_markets_recorded
    total_books_recorded := some s.total_books_recorded
    total_gcs_writes := some s.total_gcs_writes
    gcs_errors := some s.gcs_errors
    api_errors := some s.api_errors }

/-- The JSON object `_save_state` writes (lines 417-431): errors are capped to
the last 50 (`self.errors[-50:]`). -/
def save_snapshot (s : EngineState) : PersistedState :=
  { day_started := some s.day_started
    poll_count := some s.poll_count
    last_poll := s.last_poll
    stats := some (statsToPartial s.stats)
    errors := some (s.errors.drop (s.errors.length - 50))
    status := some s.status }

/-- `RecorderEngine._check_day_rollover` (lines 174-185).  `today` is the
current UTC calendar date string.  Returns the new state and, when a save
happened, the snapshot written (`_save_state`'s best-effort file I/O failure
path only logs and is not modelled). -/
def check_day_rollover (s : EngineState) (today : String) :
    EngineState × Option PersistedState :=
  if today ≠ s.day_started then
    let s' := { s with
      day_started := today
      poll_count := 0
      catalogue_cache := []
      books_cache := []
      market_index := []
      errors := [] }
    (s', some (save_snapshot s'))
  else (s, none)

/-- `RecorderEngine._load_state` (lines 433-456), applied to the freshly
initialised engine state `init`.  `file` is the parsed content of the state
file (`none` when the file does not exist; a JSON parse error would raise and
leave the state unchanged, which coincides with the `none` case here).
Returns the resulting state and whether the stale file was deleted. -/
def load_state (init : EngineState) (today : String)
    (file : Option PersistedState) : EngineState × Bool :=
  match file with
  | none => (init, false)
  | some d =>
    if d.day_started ≠ some today then (init, true)
    else
      ({ init with
          day_started := (d.day_started).getD ""    -- data["day_started"], = today here
          poll_count := (d.poll_count).getD 0
          last_poll := d.last_poll
          stats := mergeStats init.stats ((d.stats).getD StatsPartial.empty)
          errors := (d.errors).getD [] }, false)

/-! ## Catalogue and book fetching (`betfair_client.py`, lines 207-294) -/

/-- `BetfairClient.get_market_catalogue` (lines 207-250), as a function of the
underlying `_api_call("listMarketCatalogue", …)` result.  The return type is
`Option` because `_poll_cycle` dynamically tests the returned value with
`is None`; the body shows the function returns a list in both branches
(`if result is None: return []`). -/
def get_market_catalogue (apiResult : Option (List Market)) :
    Option (List Market) :=
  match apiResult with
  | none => some []
  | some l => some l

/-- `market_ids[i : i + batch_size]` chunking of the
`for i in range(0, len(market_ids), batch_size)` loop.  The fuel argument is
bounded by the list length; with `n ≥ 1` it never runs out. -/
def chunkListAux : Nat → List α → Nat → List (List α)
  | 0, _, _ => []
  | _, [], _ => []
  | fuel + 1, l, n => l.take n :: chunkListAux fuel (l.drop n) n

def chunkList (l : List α) (n : Nat) : List (List α) :=
  chunkListAux l.length l n

/-- `BetfairClient.get_market_books` (lines 256-294) as a function of the
per-chunk `_api_call("listMarketBook", …)` results.  A chunk whose call
returned `None` (or a falsy empty list — `if result:`) contributes no
records; the `time.sleep(0.2)` pacing between chunks has no state effect. -/
def get_market_books (market_ids : List String) (price_data : List String)
    (chunkResults : List (Option (List Book))) : List Book :=
  if market_ids.isEmpty then []
  else
    let batch_size := calculate_batch_size price_data
    let cs := chunkList market_ids batch_size
    ((List.range cs.length).map
      (fun i =>
        match chunkResults.getD i none with
        | some r => if r.isEmpty then [] else r
        | none => [])).flatten

/-! ## One poll cycle (`recorder.py`, lines 191-313) -/

/-- Everything the outside world hands one poll cycle: the current wall clock
(ISO timestamp and its formatted date/time components), the result of
`client.ensure_session()`, the raw result of the catalogue API call, the
per-chunk book results, and the two GCS upload outcomes. -/
structure CycleEnv where
  now : String
  date : String
  timeStr : String
  sessionOk : Bool
  apiCatalogue : Option (List Market)
  bookChunks : List (Option (List Book))
  catUpload : UploadOutcome
  booksUpload : UploadOutcome
deriving DecidableEq, Repr

/-- The state after one `_poll_cycle` call plus a trace of the externally
visible actions the cycle performed. -/
structure CycleResult where
  state : EngineState
  discoveryCalled : Bool
  booksCalled : Bool
  catWriteAttempted : Bool
  booksWriteAttempted : Bool
  savedState : Bool
deriving DecidableEq, Repr

/-- The book-loop body at lines 264-274: update `books_cache` and, when the
id is already indexed, the summary's status fields. -/
def applyBook (p : List (String × Book) × List (String × MarketSummary))
    (b : Book) : List (String × Book) × List (String × MarketSummary) :=
  let mid := b.marketId.getD ""
  let bc := dset p.1 mid b
  let mi :=
    match dget p.2 mid with
    | some summ =>
        dset p.2 mid { summ with
          status := b.status.getD "UNKNOWN"
          inPlay := some (b.inPlay.getD false)
          totalMatched := some (b.totalMatched.getD 0) }
    | none => p.2
  (bc, mi)

/-- Lines 281-288 of `_poll_cycle`: the catalogue durable write and its
bookkeeping (`if cat_path: … elif self.writer.is_configured: …`; a built
object path is never the empty string, so Python's truthiness test on it is
`isSome`).  Returns the updated state and whether an upload was attempted. -/
def catWriteStep (s : EngineState) (cat : List Market) (date time : String)
    (upload : UploadOutcome) : EngineState × Bool :=
  let catW := write_catalogue s.writer cat date time upload
  let s :=
    match catW.1 with
    | some p =>
      let s := { s with
        last_catalogue_path := some p
        stats := { s.stats with total_gcs_writes := s.stats.total_gcs_writes + 1 } }
      log_entry s ("GCS write: catalogue → " ++ p) "info"
    | none =>
      if s.writer.is_configured then
        let s := { s with stats := { s.stats with gcs_errors := s.stats.gcs_errors + 1 } }
        log_entry s "GCS write failed: catalogue" "error"
      else s
  (s, catW.2)

/-- Lines 290-297 of `_poll_cycle`: the books durable write, symmetric to the
catalogue one. -/
def bookWriteStep (s : EngineState) (books : List Book) (date time : String)
    (upload : UploadOutcome) : EngineState × Bool :=
  let bookW := write_books s.writer books date time upload
  let s :=
    match bookW.1 with
    | some p =>
      let s := { s with
        last_books_path := some p
        stats := { s.stats with total_gcs_writes := s.stats.total_gcs_writes + 1 } }
      log_entry s ("GCS write: books → " ++ p) "info"
    | none =>
      if s.writer.is_configured then
        let s := { s with stats := { s.stats with gcs_errors := s.stats.gcs_errors + 1 } }
        log_entry s "GCS write failed: books" "error"
      else s
  (s, bookW.2)

/-- Lines 239-313 of `_poll_cycle`: the rest of a cycle that passed the
session check and discovered a non-empty catalogue. -/
def completeCycle (s : EngineState) (cat : List Market) (date timeStr : String)
    (bookChunks : List (Option (List Book)))
    (catUpload booksUpload : UploadOutcome) : CycleResult :=
  -- lines 239-251
  let s := { s with
    catalogue_cache := cat
    market_index := cat.foldl
      (fun idx m => dset idx m.marketId (mkSummary m)) s.market_index }
  let s := log_entry s ("Poll #" ++ toString s.poll_count ++ ": found " ++
    toString cat.length ++ " markets, fetching books...") "info"
  -- lines 256-261
  let market_ids := cat.map (fun m => m.marketId)
  let books := get_market_books market_ids s.config.price_projection bookChunks
  -- lines 264-274
  let bm := books.foldl applyBook (s.books_cache, s.market_index)
  let s := { s with books_cache := bm.1, market_index := bm.2 }
  let s := log_entry s ("Poll #" ++ toString s.poll_count ++ ": got " ++
    toString books.length ++ " books, writing to GCS...") "info"
  -- lines 279-288
  let s := { s with status := .WRITING }
  let catR := catWriteStep s cat date timeStr catUpload
  let s := catR.1
  -- lines 290-297
  let bookR := bookWriteStep s books date timeStr booksUpload
  let s := bookR.1
  -- lines 300-302
  let s := { s with stats := { s.stats with
    total_polls := s.stats.total_polls + 1
    total_markets_recorded := s.stats.total_markets_recorded + cat.length
    total_books_recorded := s.stats.total_books_recorded + books.length } }
  -- lines 305-306
  let saved := s.poll_count % 5 == 0
  -- lines 308-309
  let s := { s with status := .RUNNING }
  let s := log_entry s ("Poll #" ++ toString s.poll_count ++ " complete: " ++
    toString cat.length ++ " markets, " ++ toString books.length ++ " books") "info"
  ⟨s, true, true, catR.2, bookR.2, saved⟩

/-- `RecorderEngine._poll_cycle` (lines 191-313), step for step.  The
`with self._lock` blocks only order concurrent readers and have no effect on
the single-threaded state transition modelled here. -/
def poll_cycle (s : EngineState) (env : CycleEnv) : CycleResult :=
  -- lines 193-195
  let s := { s with last_poll := some env.now, poll_count := s.poll_count + 1 }
  -- line 198
  let s := log_entry s ("Poll #" ++ toString s.poll_count ++
    ": checking Betfair session...") "info"
  -- lines 199-202
  if ¬ env.sessionOk then
    let s := add_error s "Session expired — attempting keepalive failed"
    let s := { s with status := .AUTH_ERROR }
    ⟨s, false, false, false, false, false⟩
  else
    -- lines 204-209
    let s := log_entry s ("Poll #" ++ toString s.poll_count ++
      ": session OK, fetching catalogue") "info"
    let s := { s with status := .POLLING }
    -- lines 212-216
    let catalogue := get_market_catalogue env.apiCatalogue
    match catalogue with
    | none =>
      -- lines 218-226 (unreachable: get_market_catalogue never returns none)
      let s := log_entry s ("Poll #" ++ toString s.poll_count ++
        ": catalogue API call FAILED — check Cloud Run logs for error details")
        "error"
      let s := { s with stats := { s.stats with api_errors := s.stats.api_errors + 1 } }
      let s := { s with status := .RUNNING }
      ⟨s, true, false, false, false, false⟩
    | some cat =>
      if cat.length = 0 then
        -- lines 228-236
        let s := log_entry s ("Poll #" ++ toString s.poll_count ++
          ": Betfair returned 0 markets (API OK but no matches for current filter)")
          "warn"
        let s := { s with status := .RUNNING }
        ⟨s, true, false, false, false, false⟩
      else
        -- lines 239-313
        completeCycle s cat env.date env.timeStr env.bookChunks
          env.catUpload env.booksUpload

/-- Run a sequence of poll cycles, recording for each cycle whether
`_save_state` was called and the cumulative `total_polls` afterwards. -/
def runCycles : EngineState → List CycleEnv → EngineState × List (Bool × Nat)
  | s, [] => (s, [])
  | s, e :: es =>
    let r := poll_cycle s e
    let rest := runCycles r.state es
    (rest.1, (r.savedState, r.state.stats.total_polls) :: rest.2)

/-! ## Concrete fixtures used by witnesses and counterexamples -/

def cfg0 : RecorderConfig :=
  { countries := ["GB", "IE"], market_types := []
    catalogue_projections := ["EVENT", "MARKET_START_TIME", "RUNNER_DESCRIPTION"]
    price_projection := ["EX_BEST_OFFERS", "EX_TRADED"], poll_interval_seconds := 60 }

def writer0 : Writer :=
  { project_id := "proj", bucket_name := "bkt", base_path := "betfair-live"
    event_type_id := "7" }

/-- A freshly initialised engine (lines 54-82 of recorder.py) with status
`RUNNING` as inside the loop. -/
def initState : EngineState :=
  { config := cfg0, writer := writer0, status := .RUNNING
    day_started := "2026-10-12", poll_count := 0, last_poll := none
    last_catalogue_path := none, last_books_path := none, errors := []
    activity_log := [], catalogue_cache := [], books_cache := []
    market_index := [], stats := Stats.init }

def mkt1 : Market :=
  { marketId := "1.234", marketName := some "Win"
    marketStartTime := some "2026-10-12T14:00:00Z", eventVenue := some "Ascot"
    eventName := some "Ascot Race", runners := some 8 }

def book1 : Book :=
  { marketId := some "1.234", status := some "OPEN", inPlay := some false
    totalMatched := some 1000 }

/-- A healthy cycle environment: live session, one market discovered, its
book returned, both uploads succeed. -/
def envOk : CycleEnv :=
  { now := "2026-10-12T12:00:00+00:00", date := "2026-10-12"
    timeStr := "12-00-00", sessionOk := true, apiCatalogue := some [mkt1]
    bookChunks := [some [book1]], catUpload := .ok, booksUpload := .ok }

/-- Same, but `ensure_session()` fails. -/
def envFail : CycleEnv := { envOk with sessionOk := false }

/-- Same, but the catalogue API call itself fails
(`_api_call` returns `None`). -/
def envApiDown : CycleEnv := { envOk with apiCatalogue := none }

/-- Same, but the catalogue API call succeeds with zero matches. -/
def envEmpty : CycleEnv := { envOk with apiCatalogue := some ([] : List Market) }

def c4client : Client :=
  { app_key := "appkey", ssoid := "ssoid-token", last_keepalive := none
    session_valid := true }

/-- A cycle in which discovery finds one market but every book chunk call
fails, so `get_market_books` collects zero records. -/
def envNoBooks : CycleEnv := { envOk with bookChunks := [] }

/-- An engine state carrying data from the previous day. -/
def staleState : EngineState :=
  { initState with
      day_started := "2026-10-11"
      poll_count := 7
      last_poll := some "2026-10-11T23:59:00+00:00"
      errors := ["old error"]
      catalogue_cache := [mkt1]
      books_cache := [("1.234", book1)]
      market_index := [("1.234", mkSummary mkt1)] }

/-- A persisted state file written on the previous day. -/
def persistedStale : PersistedState :=
  { day_started := some "2026-10-11", poll_count := some 42
    last_poll := some "2026-10-11T23:59:00+00:00"
    stats := some { StatsPartial.empty with total_polls := some 42 }
    errors := some ["old error"], status := some .RUNNING }

/-- A persisted state file written earlier on the current day. -/
def persistedToday : PersistedState :=
  { day_started := some "2026-10-12", poll_count := some 42
    last_poll := some "2026-10-12T09:00:00+00:00"
    stats := some { StatsPartial.empty with total_polls := some 40 }
    errors := some ["morning error"], status := some .RUNNING }

/-! ## Heap model of Python objects (feed reads, `recorder.py` 319-348)

The feed accessors return `copy.deepcopy` of cached objects.  To state what
the copy buys the caller, Python's object graph is modelled explicitly: a
heap is a list of nodes addressed by position, a node is an atom (strings,
numbers, booleans — opaque here) or a container holding addresses, and a
mutation overwrites one heap cell with a value whose references point into
the heap.  `deepcopy` allocates fresh cells for the whole reachable
structure; its memo table for shared sub-objects is not modelled — the memo
only affects sharing *inside* the copy, not the copy's value or its
disjointness from the original, which is what the claim is about. -/

inductive PyVal where
  | atom : String → PyVal
  | pylist : List Nat → PyVal
  | pydict : List (String × Nat) → PyVal
deriving DecidableEq, Repr

/-- The addresses a node refers to. -/
def childAddrs : PyVal → List Nat
  | .atom _ => []
  | .pylist l => l
  | .pydict d => d.map (fun p => p.2)

/-- Heap well-formedness: every stored reference points into the heap. -/
def wfHeap (h : List PyVal) : Bool :=
  h.all (fun v => (childAddrs v).all (fun c => c < h.length))

/-- Python truthiness of a fetched object (`None` for a missing address): an
empty dict, empty list or empty string is falsy. -/
def pyTruthy : Option PyVal → Bool
  | none => false
  | some (.atom s) => s ≠ ""
  | some (.pylist l) => ¬ l.isEmpty
  | some (.pydict d) => ¬ d.isEmpty

/-- Pure trees: the value a heap address denotes. -/
inductive PyTree where
  | atom : String → PyTree
  | tlist : List PyTree → PyTree
  | tdict : List (String × PyTree) → PyTree
  | bad

/-- The pure value a heap address denotes, as a tree.  `fuel` bounds the
unfolding depth; it is irrelevant once it exceeds the structure's height. -/
def denote (h : List PyVal) : Nat → Nat → PyTree
  | 0, _ => .bad
  | f + 1, a =>
    match h[a]? with
    | none => .bad
    | some (.atom s) => .atom s
    | some (.pylist l) => .tlist (l.map (fun b => denote h f b))
    | some (.pydict d) => .tdict (d.map (fun p => (p.1, denote h f p.2)))

/-- Copy a sequence of addresses one after the other, threading the heap. -/
def copySeq (copy : List PyVal → Nat → List PyVal × Nat) :
    List PyVal → List Nat → List PyVal × List Nat
  | h, [] => (h, [])
  | h, a :: as =>
    let r1 := copy h a
    let r2 := copySeq copy r1.1 as
    (r2.1, r1.2 :: r2.2)

/-- Copy the values of a key-address association, threading the heap. -/
def copyPairs (copy : List PyVal → Nat → List PyVal × Nat) :
    List PyVal → List (String × Nat) → List PyVal × List (String × Nat)
  | h, [] => (h, [])
  | h, p :: ps =>
    let r1 := copy h p.2
    let r2 := copyPairs copy r1.1 ps
    (r2.1, (p.1, r1.2) :: r2.2)

/-- `copy.deepcopy`: rebuild the structure reachable from `a` in freshly
allocated cells (appended at the end of the heap) and return the new heap
and the address of the copy's root.  Exhausted fuel or a dangling address
allocates an empty atom; neither occurs on a well-formed heap with fuel
at least the structure's height. -/
def deepcopy (h : List PyVal) : Nat → Nat → List PyVal × Nat
  | 0, _ => (h ++ [.atom ""], h.length)
  | f + 1, a =>
    match h[a]? with
    | none => (h ++ [.atom ""], h.length)
    | some (.atom s) => (h ++ [.atom s], h.length)
    | some (.pylist l) =>
      let r := copySeq (fun h' b => deepcopy h' f b) h l
      (r.1 ++ [.pylist r.2], r.1.length)
    | some (.pydict d) =>
      let r := copyPairs (fun h' b => deepcopy h' f b) h d
      (r.1 ++ [.pydict r.2], r.1.length)

/-- The engine's in-memory caches as seen by the feed accessors: the address
of the `_catalogue_cache` list object and the `_books_cache` dict mapping a
market id to the address of its book object. -/
structure FeedCache where
  catalogue_root : Nat
  books : List (String × Nat)
deriving DecidableEq, Repr

/-- `RecorderEngine.get_feed_markets` (lines 319-326):
`deepcopy(self._catalogue_cache)`. -/
def get_feed_markets (h : List PyVal) (cache : FeedCache) (fuel : Nat) :
    List PyVal × Nat :=
  deepcopy h fuel cache.catalogue_root

/-- `RecorderEngine.get_feed_book` (lines 328-335):
`book = self._books_cache.get(market_id); return deepcopy(book) if book else
None` — note the truthiness test, not an `is None` test. -/
def get_feed_book (h : List PyVal) (cache : FeedCache) (mid : String)
    (fuel : Nat) : List PyVal × Option Nat :=
  match dget cache.books mid with
  | none => (h, none)
  | some a =>
    if pyTruthy h[a]? then
      let r := deepcopy h fuel a
      (r.1, some r.2)
    else (h, none)

/-- `RecorderEngine.get_feed_books` (lines 337-348): one truthiness-gated
copy per requested id, in order. -/
def get_feed_books (h : List PyVal) (cache : FeedCache) (fuel : Nat) :
    List String → List PyVal × List Nat
  | [] => (h, [])
  | mid :: rest =>
    match dget cache.books mid with
    | some a =>
      if pyTruthy h[a]? then
        let r := deepcopy h fuel a
        let r2 := get_feed_books r.1 cache fuel rest
        (r2.1, r.2 :: r2.2)
      else get_feed_books h cache fuel rest
    | none => get_feed_books h cache fuel rest

/-- The value `get_feed_book` hands the caller, as a pure tree. -/
def feedBookValue (h : List PyVal) (cache : FeedCache) (mid : String)
    (fuel : Nat) : Option PyTree :=
  match get_feed_book h cache mid fuel with
  | (h', some r) => some (denote h' fuel r)
  | (_, none) => none

/-- The value `get_feed_markets` hands the caller, as a pure tree. -/
def feedMarketsValue (h : List PyVal) (cache : FeedCache) (fuel : Nat) : PyTree :=
  let r := get_feed_markets h cache fuel
  denote r.1 fuel r.2

/-- The values `get_feed_books` hands the caller, as pure trees. -/
def feedBooksValue (h : List PyVal) (cache : FeedCache) (fuel : Nat)
    (mids : List String) : List PyTree :=
  let r := get_feed_books h cache fuel mids
  r.2.map (denote r.1 fuel)

/-- What the caches hold for one market id, as a pure tree (None when the id
is absent or its book is falsy). -/
def cachedBookView (h : List PyVal) (cache : FeedCache) (mid : String)
    (fuel : Nat) : Option PyTree :=
  match dget cache.books mid with
  | some a => if pyTruthy h[a]? then some (denote h fuel a) else none
  | none => none

/-- What the caches hold for a list of market ids (falsy/absent entries
skipped), as pure trees. -/
def cachedBooksView (h : List PyVal) (cache : FeedCache) (fuel : Nat)
    (mids : List String) : List PyTree :=
  mids.filterMap (fun mid => cachedBookView h cache mid fuel)

/-- `H` extends `h` by freshly allocated cells only: existing cells are
unchanged and every appended cell refers only to addresses at or above the
old heap's end (and inside the new heap). -/
def CopyExtends (h H : List PyVal) : Prop :=
  ∃ ext, H = h ++ ext ∧
    ∀ v ∈ ext, ∀ c ∈ childAddrs v, h.length ≤ c ∧ c < H.length

/-- Fixtures for the C9 counterexample and witness. -/
def h9 : List PyVal := [.pydict []]

def cache9 : FeedCache := { catalogue_root := 0, books := [("1.234", 0)] }

def h9w : List PyVal :=
  [.pylist [1], .pydict [("lastPriceTraded", 2)], .atom "1.95"]

def cache9w : FeedCache := { catalogue_root := 0, books := [("1.234", 1)] }

/-! # Theorems -/

/-! ## Helper lemmas about the planner loop -/

/-- The combo loop computes exactly what `find?` over the combo table
followed by the combo-cost formula computes. -/
theorem comboTotal_eq_find (cs : List (List String × Nat)) (ds : List String) :
    comboTotal cs ds =
      (cs.find? (fun cw => cw.1.all (fun p => ds.contains p))).map
        (fun cw => cw.2 +
          ((ds.filter (fun p => ¬ cw.1.contains p)).map
            (fun p => (priceWeight? p).getD 0)).sum) := by
  induction cs with
  | nil => rfl
  | cons c rest ih =>
    obtain ⟨combo, w⟩ := c
    simp only [comboTotal, List.find?_cons]
    cases h : combo.all (fun p => ds.contains p) with
    | true => simp [h]
    | false => simp [h, ih]

/-- The code's total cost coincides with the amended-claim total cost. -/
theorem total_cost_eq_amended (l : List String) :
    total_cost l = amended_total_cost l := by
  simp only [total_cost, amended_total_cost, comboTotal_eq_find]
  cases h : (COMBINED_WEIGHTS.find?
      (fun cw => cw.1.all (fun p => (l.eraseDups).contains p))) with
  | none => simp [h]
  | some cw => simp [h]

/-! ## C2 — batch-size cost formula -/

/-- C2 counterexample: for the request `["EX_BEST_OFFERS","EX_TRADED","FOO"]`
the claim's formula (unknown remaining fields count 2 in the combo branch)
gives `200 // (20 + 2) = 9`, while the code (unknown remaining fields count 0)
returns `200 // 20 = 10`.  The claim as stated is therefore false. -/
theorem c2_counterexample :
    claim_batch_size ["EX_BEST_OFFERS", "EX_TRADED", "FOO"] = 9 ∧
    calculate_batch_size ["EX_BEST_OFFERS", "EX_TRADED", "FOO"] = 10 ∧
    claim_batch_size ["EX_BEST_OFFERS", "EX_TRADED", "FOO"] ≠
      calculate_batch_size ["EX_BEST_OFFERS", "EX_TRADED", "FOO"] :=
  ⟨rfl, rfl, by decide⟩

/-- C2 (amended): as the claim states, except that in the combo branch a
remaining field with no individual weight counts 0 (the code uses
`PRICE_WEIGHTS.get(p, 0)` there), not 2.  `calculate_batch_size` equals
`max 1 (200 / cost)` for the amended cost on every input. -/
theorem c2_planner_cost_amended (price_data : List String) :
    calculate_batch_size price_data =
      max 1 (200 / amended_total_cost price_data) := by
  unfold calculate_batch_size MAX_REQUEST_WEIGHT
  rw [total_cost_eq_amended]

/-! ## C3 — batch size is ≥ 1 with bounded overshoot -/

/-- C3: for every field-projection list (empty and unknown fields included),
`calculate_batch_size` is a total function returning at least 1, and
`batch_size * cost ≤ 200 + cost` where `cost` is the planner's total cost. -/
theorem c3_batch_size_bounds (price_data : List String) :
    1 ≤ calculate_batch_size price_data ∧
    calculate_batch_size price_data * total_cost price_data ≤
      200 + total_cost price_data := by
  constructor
  · exact le_max_left 1 _
  · unfold calculate_batch_size MAX_REQUEST_WEIGHT
    rcases Nat.eq_zero_or_pos (200 / total_cost price_data) with h | h
    · rw [h]
      simp
    · rw [Nat.max_eq_right h]
      calc 200 / total_cost price_data * total_cost price_data ≤ 200 :=
            Nat.div_mul_le_self _ _
        _ ≤ 200 + total_cost price_data := Nat.le_add_right _ _

/-! ## C4 — keepalive failure and session validity -/

/-- C4 counterexample: a keepalive that fails with a network-level exception
returns `False` but leaves `_session_valid` untouched (the `except` branch at
lines 115-117 only logs).  Starting from a valid session, the state is still
valid afterwards, so "after any keepalive call that does not succeed the
session state is INVALID" is false as stated. -/
theorem c4_counterexample :
    (keepalive c4client .exc 0).2 = false ∧
    (keepalive c4client .exc 0).1.session_valid = true :=
  ⟨rfl, rfl⟩

/-- C4 (amended): a keepalive that receives an upstream non-SUCCESS response
sets `_session_valid` to `False` and returns `False`; a keepalive that fails
at the network level (exception) returns `False` but leaves the whole client
state unchanged; and `keepalive` returns `True` only with the session marked
valid. -/
theorem c4_keepalive_amended (c : Client) (net : KeepaliveNet) (now : Nat) :
    (c.ssoid ≠ "" →
      keepalive c (.resp false) now = ({ c with session_valid := false }, false)) ∧
    keepalive c .exc now = (c, false) ∧
    ((keepalive c net now).2 = true → (keepalive c net now).1.session_valid = true) := by
  refine ⟨?_, ?_, ?_⟩
  · intro h
    simp [keepalive, h]
  · unfold keepalive
    by_cases h : c.ssoid = "" <;> simp [h]
  · unfold keepalive
    by_cases h : c.ssoid = ""
    · simp [h]
    · cases net with
      | resp success => cases success <;> simp [h]
      | exc => simp [h]

/-- Witness for C4 (amended) at a concrete client. -/
theorem c4_keepalive_amended_witness :
    c4client.ssoid ≠ "" ∧
    keepalive c4client (.resp false) 0 =
      ({ c4client with session_valid := false }, false) ∧
    (keepalive c4client (.resp true) 0).2 = true ∧
    (keepalive c4client (.resp true) 0).1.session_valid = true :=
  ⟨by decide, (c4_keepalive_amended c4client (.resp false) 0).1 (by decide),
   rfl, (c4_keepalive_amended c4client (.resp true) 0).2.2 rfl⟩

/-! ## Frame lemmas for the engine-state helpers -/

theorem Writer.enabled_of_configured (w : Writer) (h : w.is_configured = true) :
    w.enabled = true := by
  unfold Writer.is_configured at h
  unfold Writer.enabled
  exact (Bool.and_eq_true_iff.mp h).1

theorem log_entry_stats (s : EngineState) (m l : String) :
    (log_entry s m l).stats = s.stats := rfl

theorem log_entry_poll_count (s : EngineState) (m l : String) :
    (log_entry s m l).poll_count = s.poll_count := rfl

theorem log_entry_config (s : EngineState) (m l : String) :
    (log_entry s m l).config = s.config := rfl

theorem log_entry_writer (s : EngineState) (m l : String) :
    (log_entry s m l).writer = s.writer := rfl

theorem log_entry_errors (s : EngineState) (m l : String) :
    (log_entry s m l).errors = s.errors := rfl

/-- `(l.drop k).getLast? = l.getLast?` for `k < l.length`. -/
theorem getLast_drop_of_lt (l : List α) (k : Nat) (h : k < l.length) :
    (l.drop k).getLast? = l.getLast? := by
  conv_rhs => rw [← List.take_append_drop k l]
  rw [List.getLast?_append_of_ne_nil]
  intro hc
  have hlen := congrArg List.length hc
  simp at hlen
  omega

/-- `_log` leaves the appended entry as the last element of the activity log,
trim or no trim. -/
theorem log_entry_getLast (s : EngineState) (m l : String) :
    ((log_entry s m l).activity_log).getLast? = some ⟨l, m⟩ := by
  unfold log_entry
  dsimp only
  split
  · rename_i htrim
    rw [getLast_drop_of_lt]
    · exact List.getLast?_concat _
    · simp only [List.length_append, List.length_cons, List.length_nil] at htrim ⊢
      omega
  · exact List.getLast?_concat _

/-- `_log` keeps the previous last entry as the second-to-last element. -/
theorem log_entry_dropLast_getLast (s : EngineState) (m l : String)
    (e : LogEntry) (h : s.activity_log.getLast? = some e) :
    ((log_entry s m l).activity_log).dropLast.getLast? = some e := by
  unfold log_entry
  dsimp only
  split
  · rename_i htrim
    simp only [List.length_append, List.length_cons, List.length_nil] at htrim
    have hk : (s.activity_log ++ [(⟨l, m⟩ : LogEntry)]).length - 250 ≤
        s.activity_log.length := by
      simp only [List.length_append, List.length_cons, List.length_nil]
      omega
    rw [List.drop_append_of_le_length hk, List.dropLast_concat, getLast_drop_of_lt, h]
    simp only [List.length_append, List.length_cons, List.length_nil]
    omega
  · rw [List.dropLast_concat, h]

theorem catWriteStep_poll_count (s : EngineState) (cat : List Market)
    (d t : String) (u : UploadOutcome) :
    ((catWriteStep s cat d t u).1).poll_count = s.poll_count := by
  unfold catWriteStep
  dsimp only
  split
  · rfl
  · split <;> rfl

theorem catWriteStep_total_polls (s : EngineState) (cat : List Market)
    (d t : String) (u : UploadOutcome) :
    ((catWriteStep s cat d t u).1).stats.total_polls = s.stats.total_polls := by
  unfold catWriteStep
  dsimp only
  split
  · rfl
  · split <;> rfl

theorem catWriteStep_writer (s : EngineState) (cat : List Market)
    (d t : String) (u : UploadOutcome) :
    ((catWriteStep s cat d t u).1).writer = s.writer := by
  unfold catWriteStep
  dsimp only
  split
  · rfl
  · split <;> rfl

theorem catWriteStep_config (s : EngineState) (cat : List Market)
    (d t : String) (u : UploadOutcome) :
    ((catWriteStep s cat d t u).1).config = s.config := by
  unfold catWriteStep
  dsimp only
  split
  · rfl
  · split <;> rfl

theorem bookWriteStep_poll_count (s : EngineState) (books : List Book)
    (d t : String) (u : UploadOutcome) :
    ((bookWriteStep s books d t u).1).poll_count = s.poll_count := by
  unfold bookWriteStep
  dsimp only
  split
  · rfl
  · split <;> rfl

theorem bookWriteStep_total_polls (s : EngineState) (books : List Book)
    (d t : String) (u : UploadOutcome) :
    ((bookWriteStep s books d t u).1).stats.total_polls = s.stats.total_polls := by
  unfold bookWriteStep
  dsimp only
  split
  · rfl
  · split <;> rfl

/-- A successful catalogue write of a non-empty catalogue by a configured
writer leaves the write-error counter unchanged. -/
theorem catWriteStep_gcs_ok (s : EngineState) (m : Market) (ms : List Market)
    (d t : String) (hconf : s.writer.is_configured = true) :
    ((catWriteStep s (m :: ms) d t .ok).1).stats.gcs_errors =
      s.stats.gcs_errors := by
  have hen := Writer.enabled_of_configured s.writer hconf
  simp [catWriteStep, write_catalogue, write_ndjson, hconf, hen, log_entry_stats]

/-- A failed catalogue write of a non-empty catalogue by a configured writer
increments the write-error counter. -/
theorem catWriteStep_gcs_err (s : EngineState) (m : Market) (ms : List Market)
    (d t : String) (hconf : s.writer.is_configured = true) :
    ((catWriteStep s (m :: ms) d t .err).1).stats.gcs_errors =
      s.stats.gcs_errors + 1 := by
  have hen := Writer.enabled_of_configured s.writer hconf
  simp [catWriteStep, write_catalogue, write_ndjson, hconf, hen, log_entry_stats]

/-- The books write step with an empty record list and a configured writer:
`write_ndjson` returns `None` without attempting an upload, and the step
books a write error and logs the failure. -/
theorem bookWriteStep_empty (s : EngineState) (d t : String)
    (u : UploadOutcome) (hconf : s.writer.is_configured = true) :
    bookWriteStep s [] d t u =
      (log_entry
        { s with stats := { s.stats with gcs_errors := s.stats.gcs_errors + 1 } }
        "GCS write failed: books" "error", false) := by
  by_cases hen : s.writer.enabled = true
  · simp [bookWriteStep, write_books, write_ndjson, hconf, hen]
  · simp [bookWriteStep, write_books, write_ndjson, hconf, hen]

set_option maxHeartbeats 2000000 in
/-- A cycle with a live session and a non-empty discovery result runs the
complete branch, applied to the state after the poll-counter increment and
the first two activity-log lines. -/
theorem poll_cycle_cons (s : EngineState) (now date timeStr : String)
    (m : Market) (ms : List Market) (bookChunks : List (Option (List Book)))
    (catUpload booksUpload : UploadOutcome) :
    poll_cycle s ⟨now, date, timeStr, true, some (m :: ms), bookChunks,
        catUpload, booksUpload⟩ =
      completeCycle
        { log_entry
            (log_entry { s with last_poll := some now, poll_count := s.poll_count + 1 }
              ("Poll #" ++ toString (s.poll_count + 1) ++ ": checking Betfair session...")
              "info")
            ("Poll #" ++ toString (s.poll_count + 1) ++ ": session OK, fetching catalogue")
            "info"
          with status := .POLLING }
        (m :: ms) date timeStr bookChunks catUpload booksUpload := rfl

theorem completeCycle_savedState (s : EngineState) (cat : List Market)
    (date timeStr : String) (bc : List (Option (List Book)))
    (cu bu : UploadOutcome) :
    (completeCycle s cat date timeStr bc cu bu).savedState =
      (s.poll_count % 5 == 0) := by
  dsimp only [completeCycle]
  rw [bookWriteStep_poll_count, catWriteStep_poll_count, log_entry_poll_count,
    log_entry_poll_count]

theorem completeCycle_total_polls (s : EngineState) (cat : List Market)
    (date timeStr : String) (bc : List (Option (List Book)))
    (cu bu : UploadOutcome) :
    (completeCycle s cat date timeStr bc cu bu).state.stats.total_polls =
      s.stats.total_polls + 1 := by
  dsimp only [completeCycle]
  rw [log_entry_stats]
  dsimp only
  rw [bookWriteStep_total_polls, catWriteStep_total_polls, log_entry_stats,
    log_entry_stats]

theorem completeCycle_poll_count (s : EngineState) (cat : List Market)
    (date timeStr : String) (bc : List (Option (List Book)))
    (cu bu : UploadOutcome) :
    (completeCycle s cat date timeStr bc cu bu).state.poll_count =
      s.poll_count := by
  dsimp only [completeCycle]
  rw [log_entry_poll_count]
  dsimp only
  rw [bookWriteStep_poll_count, catWriteStep_poll_count, log_entry_poll_count,
    log_entry_poll_count]

/-- In a complete cycle whose book fetch collected nothing while the writer
is configured: no books upload is attempted, the books write is nevertheless
counted as a GCS error (on top of the catalogue write's own outcome), and the
books write failure is logged just before the final "complete" line. -/
theorem completeCycle_books_empty (s : EngineState) (m : Market)
    (ms : List Market) (date timeStr : String)
    (bc : List (Option (List Book))) (cu bu : UploadOutcome)
    (hb : get_market_books ((m :: ms).map (fun mm => mm.marketId))
      s.config.price_projection bc = [])
    (hconf : s.writer.is_configured = true) :
    (completeCycle s (m :: ms) date timeStr bc cu bu).booksWriteAttempted = false ∧
    (completeCycle s (m :: ms) date timeStr bc cu bu).state.stats.gcs_errors =
      s.stats.gcs_errors + (match cu with | .ok => 1 | .err => 2) ∧
    ((completeCycle s (m :: ms) date timeStr bc cu bu).state.activity_log).dropLast.getLast? =
      some ⟨"error", "GCS write failed: books"⟩ := by
  dsimp only [completeCycle]
  simp only [log_entry_config]
  rw [hb]
  rw [List.foldl_nil]
  dsimp only
  rw [bookWriteStep_empty _ _ _ _ (by
    simp only [catWriteStep_writer, log_entry_writer]
    exact hconf)]
  refine ⟨rfl, ?_, ?_⟩
  · cases cu with
    | ok =>
      simp [log_entry_stats, log_entry_writer, catWriteStep_gcs_ok, hconf]
    | err =>
      simp [log_entry_stats, log_entry_writer, catWriteStep_gcs_err, hconf]
  · exact log_entry_dropLast_getLast _ _ _ _ (log_entry_getLast _ _ _)

/-- C1: the code cannot distinguish a failed discovery call from an empty
one.  `get_market_catalogue` maps the underlying `None` to `[]`
(betfair_client.py lines 246-247), so `_poll_cycle`'s `catalogue is None`
branch (recorder.py lines 218-226) is unreachable: with the session alive and
the catalogue API call failing, the cycle is *identical* to a cycle whose
call returned an empty list — it ends in `RUNNING` with no error recorded and
`api_errors` unchanged, contradicting the claim that a failure records an
error and increments the counter.  This contradicts the code's own explicit
(but dead) failure-handling branch, so it is a code bug rather than a wrong
claim. -/
theorem c1_failure_indistinguishable :
    get_market_catalogue none = some [] ∧
    poll_cycle initState envApiDown = poll_cycle initState envEmpty ∧
    (poll_cycle initState envApiDown).state.status = .RUNNING ∧
    (poll_cycle initState envApiDown).state.stats.api_errors =
      initState.stats.api_errors ∧
    (poll_cycle initState envApiDown).state.errors = initState.errors :=
  ⟨rfl, rfl, rfl, rfl, rfl⟩

/-! ## C6 — day rollover -/

/-- C6: when the current UTC date differs from the stored day-stamp, the
rollover check resets the poll counter to 0, clears the catalogue cache,
market index, book cache and error list, sets the day-stamp, and immediately
persists the reset state; when the dates match it changes nothing and saves
nothing. -/
theorem c6_day_rollover (s : EngineState) (today : String) :
    (today ≠ s.day_started →
      check_day_rollover s today =
        (let s' : EngineState := { s with
            day_started := today
            poll_count := 0
            catalogue_cache := []
            books_cache := []
            market_index := []
            errors := [] }
         (s', some (save_snapshot s')))) ∧
    (today = s.day_started → check_day_rollover s today = (s, none)) := by
  constructor
  · intro h
    simp [check_day_rollover, h]
  · intro h
    simp [check_day_rollover, h]

/-- Witness for C6 at a concrete stale state and a concrete matching state. -/
theorem c6_day_rollover_witness :
    ("2026-10-12" ≠ staleState.day_started ∧
      (check_day_rollover staleState "2026-10-12").1.poll_count = 0 ∧
      (check_day_rollover staleState "2026-10-12").1.catalogue_cache = [] ∧
      (check_day_rollover staleState "2026-10-12").1.books_cache = [] ∧
      (check_day_rollover staleState "2026-10-12").1.market_index = [] ∧
      (check_day_rollover staleState "2026-10-12").1.errors = [] ∧
      (check_day_rollover staleState "2026-10-12").1.day_started = "2026-10-12" ∧
      (check_day_rollover staleState "2026-10-12").2 ≠ none) ∧
    ("2026-10-12" = initState.day_started ∧
      check_day_rollover initState "2026-10-12" = (initState, none)) := by
  constructor
  · have h := (c6_day_rollover staleState "2026-10-12").1 (by decide)
    rw [h]
    exact ⟨by decide, rfl, rfl, rfl, rfl, rfl, rfl, by simp⟩
  · exact ⟨rfl, (c6_day_rollover initState "2026-10-12").2 rfl⟩

/-! ## C7 — crash-recovery load -/

/-- C7: loading a persisted state whose day-stamp differs from today deletes
the file and leaves the fresh engine state untouched (no field is merged);
loading nothing changes nothing; a same-day persisted state restores the
poll counter, last-poll timestamp, stats (loaded keys winning over the fresh
defaults) and errors. -/
theorem c7_load_state (init : EngineState) (today : String) (d : PersistedState) :
    load_state init today none = (init, false) ∧
    (d.day_started ≠ some today → load_state init today (some d) = (init, true)) ∧
    (d.day_started = some today →
      load_state init today (some d) =
        ({ init with
            day_started := today
            poll_count := d.poll_count.getD 0
            last_poll := d.last_poll
            stats := mergeStats init.stats (d.stats.getD StatsPartial.empty)
            errors := d.errors.getD [] }, false)) := by
  refine ⟨rfl, ?_, ?_⟩
  · intro h
    simp [load_state, h]
  · intro h
    simp [load_state, h]

/-- Witness for C7: a previous-day file is deleted without merging; a
same-day file restores counters, timestamp, stats and errors. -/
theorem c7_load_state_witness :
    (persistedStale.day_started ≠ some "2026-10-12" ∧
      load_state initState "2026-10-12" (some persistedStale) = (initState, true)) ∧
    (persistedToday.day_started = some "2026-10-12" ∧
      (load_state initState "2026-10-12" (some persistedToday)).2 = false ∧
      (load_state initState "2026-10-12" (some persistedToday)).1.poll_count = 42 ∧
      (load_state initState "2026-10-12" (some persistedToday)).1.last_poll =
        some "2026-10-12T09:00:00+00:00" ∧
      (load_state initState "2026-10-12" (some persistedToday)).1.stats.total_polls = 40 ∧
      (load_state initState "2026-10-12" (some persistedToday)).1.errors =
        ["morning error"]) := by
  constructor
  · exact ⟨by decide,
      (c7_load_state initState "2026-10-12" persistedStale).2.1 (by decide)⟩
  · have h := (c7_load_state initState "2026-10-12" persistedToday).2.2 rfl
    rw [h]
    exact ⟨rfl, rfl, rfl, rfl, rfl, rfl⟩

/-! ## C8 — session failure ends the cycle before any network call -/

/-- C8: when the session freshness check fails, the cycle records exactly the
session error, sets status `AUTH_ERROR`, and returns before the discovery or
book calls; the caches, the statistics and the durable-write state are
untouched and no state save happens. -/
theorem c8_auth_error_early_exit (s : EngineState) (env : CycleEnv)
    (h : env.sessionOk = false) :
    (poll_cycle s env).discoveryCalled = false ∧
    (poll_cycle s env).booksCalled = false ∧
    (poll_cycle s env).catWriteAttempted = false ∧
    (poll_cycle s env).booksWriteAttempted = false ∧
    (poll_cycle s env).savedState = false ∧
    (poll_cycle s env).state.status = .AUTH_ERROR ∧
    (poll_cycle s env).state.catalogue_cache = s.catalogue_cache ∧
    (poll_cycle s env).state.books_cache = s.books_cache ∧
    (poll_cycle s env).state.market_index = s.market_index ∧
    (poll_cycle s env).state.stats = s.stats ∧
    (poll_cycle s env).state.last_catalogue_path = s.last_catalogue_path ∧
    (poll_cycle s env).state.last_books_path = s.last_books_path ∧
    (poll_cycle s env).state.errors =
      (let e := s.errors ++ ["Session expired — attempting keepalive failed"]
       if e.length > 200 then e.drop (e.length - 100) else e) := by
  obtain ⟨now, date, timeStr, sessionOk, apiCatalogue, bookChunks, catUpload, booksUpload⟩ := env
  dsimp only at h
  subst h
  exact ⟨rfl, rfl, rfl, rfl, rfl, rfl, rfl, rfl, rfl, rfl, rfl, rfl, rfl⟩

/-- Witness for C8 at a concrete state and environment. -/
theorem c8_auth_error_early_exit_witness :
    envFail.sessionOk = false ∧
    (poll_cycle initState envFail).discoveryCalled = false ∧
    (poll_cycle initState envFail).state.status = .AUTH_ERROR ∧
    (poll_cycle initState envFail).state.stats = initState.stats ∧
    (poll_cycle initState envFail).state.errors =
      ["Session expired — attempting keepalive failed"] := by
  have h := c8_auth_error_early_exit initState envFail (by decide)
  exact ⟨by decide, h.1, h.2.2.2.2.2.1, h.2.2.2.2.2.2.2.2.2.1, by decide⟩

/-! ## C5 — state-persistence cadence -/

/-- C5 counterexample: `poll_count` counts *attempted* cycles, not successful
ones.  Run one failed cycle (session down) followed by five successful ones:
the trace below pairs each cycle's `savedState` flag with the number of
successfully completed cycles (`total_polls`) after it.  The fifth successful
cycle (the sixth attempt, `total_polls = 5`, a multiple of 5) does **not**
save, while the fourth successful one (the fifth attempt, `total_polls = 4`,
not a multiple of 5) does — both directions of the claimed "if and only if"
fail. -/
theorem c5_counterexample :
    (runCycles initState [envFail, envOk, envOk, envOk, envOk, envOk]).2 =
      [(false, 0), (false, 1), (false, 2), (false, 3), (true, 4), (false, 5)] ∧
    (5 : Nat) % 5 = 0 ∧ (4 : Nat) % 5 ≠ 0 :=
  ⟨rfl, rfl, by decide⟩

/-- C5 (amended): `_save_state` is called at the end of a poll cycle iff the
cycle ran to completion (equivalently, it incremented `total_polls`) and
`poll_count` — the count of *attempted* cycles since day start, incremented at
the start of every cycle — is a multiple of 5. -/
theorem c5_save_cadence_amended (s : EngineState) (env : CycleEnv) :
    (poll_cycle s env).savedState = true ↔
      ((poll_cycle s env).state.stats.total_polls = s.stats.total_polls + 1 ∧
       (poll_cycle s env).state.poll_count % 5 = 0) := by
  obtain ⟨now, date, timeStr, sessionOk, apiCatalogue, bookChunks, catUpload, booksUpload⟩ := env
  cases sessionOk with
  | false =>
    have e1 : (poll_cycle s
        ⟨now, date, timeStr, false, apiCatalogue, bookChunks, catUpload, booksUpload⟩).savedState
        = false := rfl
    have e2 : (poll_cycle s
        ⟨now, date, timeStr, false, apiCatalogue, bookChunks, catUpload, booksUpload⟩).state.stats.total_polls
        = s.stats.total_polls := rfl
    rw [e1, e2]
    constructor
    · intro hh
      exact absurd hh (by decide)
    · rintro ⟨h1, -⟩
      omega
  | true =>
    cases apiCatalogue with
    | none =>
      have e1 : (poll_cycle s
          ⟨now, date, timeStr, true, none, bookChunks, catUpload, booksUpload⟩).savedState
          = false := rfl
      have e2 : (poll_cycle s
          ⟨now, date, timeStr, true, none, bookChunks, catUpload, booksUpload⟩).state.stats.total_polls
          = s.stats.total_polls := rfl
      rw [e1, e2]
      constructor
      · intro hh
        exact absurd hh (by decide)
      · rintro ⟨h1, -⟩
        omega
    | some cat =>
      cases cat with
      | nil =>
        have e1 : (poll_cycle s
            ⟨now, date, timeStr, true, some [], bookChunks, catUpload, booksUpload⟩).savedState
            = false := rfl
        have e2 : (poll_cycle s
            ⟨now, date, timeStr, true, some [], bookChunks, catUpload, booksUpload⟩).state.stats.total_polls
            = s.stats.total_polls := rfl
        rw [e1, e2]
        constructor
        · intro hh
          exact absurd hh (by decide)
        · rintro ⟨h1, -⟩
          omega
      | cons m ms =>
        rw [poll_cycle_cons, completeCycle_savedState, completeCycle_total_polls,
          completeCycle_poll_count]
        simp [log_entry_stats, log_entry_poll_count]

/-! ## C10 — empty books list counted as a write failure -/

set_option maxHeartbeats 2000000 in
/-- C10: in a cycle that reaches the durable-write step with a non-empty
catalogue but an empty books list while the writer is configured,
`write_ndjson` returns `None` without attempting any upload (it does so for
every empty record list, and for every unconfigured writer), and the cycle
counts that `None` as a books write failure: `gcs_errors` is incremented (by
2 when the catalogue upload also failed, by 1 otherwise) and
"GCS write failed: books" is logged (it is the second-to-last activity-log
entry, before the final "complete" line). -/
theorem c10_empty_books_write_failure (s : EngineState) (env : CycleEnv)
    (cat : List Market)
    (hs : env.sessionOk = true)
    (hcat : env.apiCatalogue = some cat)
    (hne : cat ≠ [])
    (hbooks : get_market_books (cat.map (fun m => m.marketId))
      s.config.price_projection env.bookChunks = [])
    (hconf : s.writer.is_configured = true) :
    (∀ (w : Writer) (dt d t : String) (u : UploadOutcome),
      write_ndjson w dt ([] : List Book) d t u = (none, false)) ∧
    (∀ (w : Writer) (dt d t : String) (u : UploadOutcome) (recs : List Book),
      w.is_configured = false → write_ndjson w dt recs d t u = (none, false)) ∧
    (poll_cycle s env).booksWriteAttempted = false ∧
    (poll_cycle s env).state.stats.gcs_errors =
      s.stats.gcs_errors + (match env.catUpload with | .ok => 1 | .err => 2) ∧
    ((poll_cycle s env).state.activity_log).dropLast.getLast? =
      some ⟨"error", "GCS write failed: books"⟩ := by
  obtain ⟨now, date, timeStr, sessionOk, apiCatalogue, bookChunks, catUpload, booksUpload⟩ := env
  dsimp only at hs hcat hbooks
  subst hs
  subst hcat
  obtain ⟨m, ms, rfl⟩ : ∃ m' ms', cat = m' :: ms' := by
    cases cat with
    | nil => exact absurd rfl hne
    | cons m ms => exact ⟨m, ms, rfl⟩
  refine ⟨?_, ?_, ?_, ?_, ?_⟩
  · intro w dt d t u
    unfold write_ndjson
    split
    · rfl
    · rfl
  · intro w dt d t u recs hw
    simp [write_ndjson, hw]
  · rw [poll_cycle_cons]
    refine (completeCycle_books_empty _ _ _ _ _ _ _ _ ?_ ?_).1
    · exact hbooks
    · exact hconf
  · rw [poll_cycle_cons]
    refine (completeCycle_books_empty _ _ _ _ _ _ _ _ ?_ ?_).2.1
    · exact hbooks
    · exact hconf
  · rw [poll_cycle_cons]
    refine (completeCycle_books_empty _ _ _ _ _ _ _ _ ?_ ?_).2.2
    · exact hbooks
    · exact hconf

/-- Witness for C10 at a concrete state and environment: one market is
discovered, every book chunk call fails, the writer is configured, the
catalogue upload succeeds. -/
theorem c10_empty_books_write_failure_witness :
    envNoBooks.sessionOk = true ∧
    initState.writer.is_configured = true ∧
    (poll_cycle initState envNoBooks).booksWriteAttempted = false ∧
    (poll_cycle initState envNoBooks).state.stats.gcs_errors = 1 ∧
    ((poll_cycle initState envNoBooks).state.activity_log).dropLast.getLast? =
      some ⟨"error", "GCS write failed: books"⟩ := by
  have h := c10_empty_books_write_failure initState envNoBooks [mkt1] rfl rfl
    (by decide) rfl (by decide)
  exact ⟨rfl, by decide, h.2.2.1, h.2.2.2.1, h.2.2.2.2⟩

/-! ## C9 — heap lemmas -/

theorem copyExtends_rfl (h : List PyVal) : CopyExtends h h :=
  ⟨[], by simp, by simp⟩

theorem CopyExtends.length_le {h H : List PyVal} (he : CopyExtends h H) :
    h.length ≤ H.length := by
  obtain ⟨ext, rfl, -⟩ := he
  simp

theorem CopyExtends.lookup {h H : List PyVal} (he : CopyExtends h H)
    {b : Nat} (hb : b < h.length) : H[b]? = h[b]? := by
  obtain ⟨ext, rfl, -⟩ := he
  exact List.getElem?_append_left hb

theorem CopyExtends.trans {h H1 H2 : List PyVal}
    (h1 : CopyExtends h H1) (h2 : CopyExtends H1 H2) : CopyExtends h H2 := by
  obtain ⟨e1, rfl, hf1⟩ := h1
  obtain ⟨e2, rfl, hf2⟩ := h2
  refine ⟨e1 ++ e2, by simp, ?_⟩
  intro v hv c hc
  rcases List.mem_append.mp hv with hv1 | hv2
  · obtain ⟨hc1, hc2⟩ := hf1 v hv1 c hc
    refine ⟨hc1, ?_⟩
    calc c < (h ++ e1).length := hc2
      _ ≤ ((h ++ e1) ++ e2).length := by simp
  · obtain ⟨hc1, hc2⟩ := hf2 v hv2 c hc
    exact ⟨le_trans (by simp) hc1, hc2⟩

theorem CopyExtends.snoc {h h1 : List PyVal} (he : CopyExtends h h1)
    (v : PyVal) (hv : ∀ c ∈ childAddrs v, h.length ≤ c ∧ c < h1.length + 1) :
    CopyExtends h (h1 ++ [v]) := by
  obtain ⟨e1, rfl, hf1⟩ := he
  refine ⟨e1 ++ [v], by simp, ?_⟩
  intro w hw c hc
  rcases List.mem_append.mp hw with hw1 | hw2
  · obtain ⟨hc1, hc2⟩ := hf1 w hw1 c hc
    refine ⟨hc1, ?_⟩
    calc c < (h ++ e1).length := hc2
      _ ≤ ((h ++ e1) ++ [v]).length := by simp
  · have hwv : w = v := by simpa using hw2
    subst hwv
    obtain ⟨hc1, hc2⟩ := hv c hc
    refine ⟨hc1, ?_⟩
    simpa using hc2

theorem wfHeap_spec {h : List PyVal} (hwf : wfHeap h = true) :
    ∀ v ∈ h, ∀ c ∈ childAddrs v, c < h.length := by
  simp only [wfHeap, List.all_eq_true, decide_eq_true_eq] at hwf
  exact hwf

theorem wfHeap_copyExtends {h H : List PyVal} (hwf : wfHeap h = true)
    (he : CopyExtends h H) : wfHeap H = true := by
  obtain ⟨ext, rfl, hf⟩ := he
  simp only [wfHeap, List.all_eq_true, decide_eq_true_eq]
  intro v hv c hc
  rcases List.mem_append.mp hv with hv1 | hv2
  · calc c < h.length := wfHeap_spec hwf v hv1 c hc
      _ ≤ (h ++ ext).length := by simp
  · exact (hf v hv2 c hc).2

theorem wfHeap_set {H : List PyVal} (hwf : wfHeap H = true) (m : Nat)
    (v : PyVal) (hv : ∀ c ∈ childAddrs v, c < H.length) :
    wfHeap (H.set m v) = true := by
  simp only [wfHeap, List.all_eq_true, decide_eq_true_eq, List.length_set]
  intro w hw c hc
  rcases List.mem_or_eq_of_mem_set hw with hw1 | hw2
  · exact wfHeap_spec hwf w hw1 c hc
  · subst hw2
    exact hv c hc

/-- Denotation only looks at the cells below `h.length`: any heap agreeing
with a well-formed `h` there denotes the same trees from addresses in `h`. -/
theorem denote_agree {h H : List PyVal} (hwf : wfHeap h = true)
    (hag : ∀ b, b < h.length → H[b]? = h[b]?) :
    ∀ f a, a < h.length → denote H f a = denote h f a := by
  intro f
  induction f with
  | zero => intro a _; simp only [denote]
  | succ f ih =>
    intro a ha
    simp only [denote]
    rw [hag a ha]
    cases hv : h[a]? with
    | none => rfl
    | some v =>
      have hvmem : v ∈ h := List.getElem?_mem hv
      cases v with
      | atom s => rfl
      | pylist l =>
        have hb : ∀ b ∈ l, b < h.length := fun b hbl =>
          wfHeap_spec hwf _ hvmem b (by simpa [childAddrs] using hbl)
        exact congrArg PyTree.tlist
          (List.map_eq_map_iff.mpr (fun b hbl => ih b (hb b hbl)))
      | pydict d =>
        have hb : ∀ p ∈ d, p.2 < h.length := fun p hp =>
          wfHeap_spec hwf _ hvmem p.2
            (by simp only [childAddrs]; exact List.mem_map_of_mem _ hp)
        exact congrArg PyTree.tdict
          (List.map_eq_map_iff.mpr (fun p hp => by rw [ih p.2 (hb p hp)]))

/-- A `dget` hit names a value stored in the association list. -/
theorem dget_mem {l : List (String × α)} {k : String} {v : α}
    (hd : dget l k = some v) : ∃ k', (k', v) ∈ l := by
  unfold dget at hd
  cases hf : l.find? (fun p => p.1 == k) with
  | none => rw [hf] at hd; simp at hd
  | some p =>
    rw [hf] at hd
    simp at hd
    refine ⟨p.1, ?_⟩
    have hm := List.mem_of_find?_eq_some hf
    rw [← hd]
    simpa using hm

/-- Sequentially copying a list of addresses with a copier that only appends
fresh cells: the final heap extends the start heap, the returned roots are
fresh and valid, and — when the copier preserves denotation at fuel `f` —
the copies denote the originals. -/
theorem copySeq_spec (f : Nat) (copy : List PyVal → Nat → List PyVal × Nat)
    (hext : ∀ h a, CopyExtends h (copy h a).1)
    (hge : ∀ h a, h.length ≤ (copy h a).2)
    (hlt : ∀ h a, (copy h a).2 < (copy h a).1.length)
    (hden : ∀ h a, wfHeap h = true → a < h.length →
      denote (copy h a).1 f (copy h a).2 = denote h f a) :
    ∀ h l, CopyExtends h (copySeq copy h l).1 ∧
      (∀ r ∈ (copySeq copy h l).2,
        h.length ≤ r ∧ r < (copySeq copy h l).1.length) ∧
      (wfHeap h = true → (∀ a ∈ l, a < h.length) →
        (copySeq copy h l).2.map (fun r => denote (copySeq copy h l).1 f r) =
          l.map (fun a => denote h f a)) := by
  intro h l
  induction l generalizing h with
  | nil =>
    refine ⟨copyExtends_rfl h, ?_, ?_⟩
    · intro r hr
      simp [copySeq] at hr
    · intro _ _
      rfl
  | cons a as ih =>
    obtain ⟨ihext, ihbounds, ihden⟩ := ih (copy h a).1
    simp only [copySeq]
    refine ⟨(hext h a).trans ihext, ?_, ?_⟩
    · intro r hr
      rcases List.mem_cons.mp hr with hr1 | hr2
      · subst hr1
        exact ⟨hge h a, lt_of_lt_of_le (hlt h a) ihext.length_le⟩
      · obtain ⟨hb1, hb2⟩ := ihbounds r hr2
        exact ⟨le_trans (hext h a).length_le hb1, hb2⟩
    · intro hwf hbound
      have hwf1 : wfHeap (copy h a).1 = true :=
        wfHeap_copyExtends hwf (hext h a)
      simp only [List.map_cons]
      have hhead : denote (copySeq copy (copy h a).1 as).1 f (copy h a).2 =
          denote h f a := by
        have e1 : denote (copySeq copy (copy h a).1 as).1 f (copy h a).2 =
            denote (copy h a).1 f (copy h a).2 :=
          denote_agree hwf1 (fun b hb => ihext.lookup hb) f _ (hlt h a)
        rw [e1, hden h a hwf (hbound a (by simp))]
      have htail : (copySeq copy (copy h a).1 as).2.map
            (fun r => denote (copySeq copy (copy h a).1 as).1 f r) =
          as.map (fun b => denote (copy h a).1 f b) :=
        ihden hwf1 (fun b hb =>
          lt_of_lt_of_le (hbound b (by simp [hb])) (hext h a).length_le)
      have htail2 : as.map (fun b => denote (copy h a).1 f b) =
          as.map (fun b => denote h f b) :=
        List.map_eq_map_iff.mpr (fun b hb =>
          denote_agree hwf (fun c hc => (hext h a).lookup hc) f b
            (hbound b (by simp [hb])))
      rw [hhead, htail, htail2]

/-- `copySeq_spec` for key-value associations: keys are kept, values are
copied. -/
theorem copyPairs_spec (f : Nat) (copy : List PyVal → Nat → List PyVal × Nat)
    (hext : ∀ h a, CopyExtends h (copy h a).1)
    (hge : ∀ h a, h.length ≤ (copy h a).2)
    (hlt : ∀ h a, (copy h a).2 < (copy h a).1.length)
    (hden : ∀ h a, wfHeap h = true → a < h.length →
      denote (copy h a).1 f (copy h a).2 = denote h f a) :
    ∀ h d, CopyExtends h (copyPairs copy h d).1 ∧
      (∀ q ∈ (copyPairs copy h d).2,
        h.length ≤ q.2 ∧ q.2 < (copyPairs copy h d).1.length) ∧
      (wfHeap h = true → (∀ p ∈ d, p.2 < h.length) →
        (copyPairs copy h d).2.map
            (fun q => (q.1, denote (copyPairs copy h d).1 f q.2)) =
          d.map (fun p => (p.1, denote h f p.2))) := by
  intro h d
  induction d generalizing h with
  | nil =>
    refine ⟨copyExtends_rfl h, ?_, ?_⟩
    · intro q hq
      simp [copyPairs] at hq
    · intro _ _
      rfl
  | cons p ps ih =>
    obtain ⟨ihext, ihbounds, ihden⟩ := ih (copy h p.2).1
    simp only [copyPairs]
    refine ⟨(hext h p.2).trans ihext, ?_, ?_⟩
    · intro q hq
      rcases List.mem_cons.mp hq with hq1 | hq2
      · subst hq1
        exact ⟨hge h p.2, lt_of_lt_of_le (hlt h p.2) ihext.length_le⟩
      · obtain ⟨hb1, hb2⟩ := ihbounds q hq2
        exact ⟨le_trans (hext h p.2).length_le hb1, hb2⟩
    · intro hwf hbound
      have hwf1 : wfHeap (copy h p.2).1 = true :=
        wfHeap_copyExtends hwf (hext h p.2)
      simp only [List.map_cons]
      have hhead : denote (copyPairs copy (copy h p.2).1 ps).1 f (copy h p.2).2 =
          denote h f p.2 := by
        have e1 : denote (copyPairs copy (copy h p.2).1 ps).1 f (copy h p.2).2 =
            denote (copy h p.2).1 f (copy h p.2).2 :=
          denote_agree hwf1 (fun b hb => ihext.lookup hb) f _ (hlt h p.2)
        rw [e1, hden h p.2 hwf (hbound p (by simp))]
      have htail : (copyPairs copy (copy h p.2).1 ps).2.map
            (fun q => (q.1, denote (copyPairs copy (copy h p.2).1 ps).1 f q.2)) =
          ps.map (fun q => (q.1, denote (copy h p.2).1 f q.2)) :=
        ihden hwf1 (fun q hq =>
          lt_of_lt_of_le (hbound q (by simp [hq])) (hext h p.2).length_le)
      have htail2 : ps.map (fun q => (q.1, denote (copy h p.2).1 f q.2)) =
          ps.map (fun q => (q.1, denote h f q.2)) :=
        List.map_eq_map_iff.mpr (fun q hq => by
          rw [denote_agree hwf (fun c hc => (hext h p.2).lookup hc) f q.2
            (hbound q (by simp [hq]))])
      rw [hhead, htail, htail2]

/-- The four facts about `deepcopy`: it only appends fresh cells, the copy's
root is a fresh valid address, and on a well-formed heap the copy denotes
the original. -/
theorem deepcopy_spec : ∀ f : Nat, ∀ (h : List PyVal) (a : Nat),
    CopyExtends h (deepcopy h f a).1 ∧
    h.length ≤ (deepcopy h f a).2 ∧
    (deepcopy h f a).2 < (deepcopy h f a).1.length ∧
    (wfHeap h = true → a < h.length →
      denote (deepcopy h f a).1 f (deepcopy h f a).2 = denote h f a) := by
  intro f
  induction f with
  | zero =>
    intro h a
    simp only [deepcopy]
    refine ⟨⟨[.atom ""], rfl, ?_⟩, by simp, by simp, ?_⟩
    · intro v hv c hc
      simp at hv
      subst hv
      simp [childAddrs] at hc
    · intro _ _
      simp only [denote]
  | succ f ih =>
    intro h a
    have hcs := copySeq_spec f (fun h' b => deepcopy h' f b)
      (fun h' b => (ih h' b).1) (fun h' b => (ih h' b).2.1)
      (fun h' b => (ih h' b).2.2.1)
      (fun h' b hw hb => (ih h' b).2.2.2 hw hb)
    have hcp := copyPairs_spec f (fun h' b => deepcopy h' f b)
      (fun h' b => (ih h' b).1) (fun h' b => (ih h' b).2.1)
      (fun h' b => (ih h' b).2.2.1)
      (fun h' b hw hb => (ih h' b).2.2.2 hw hb)
    simp only [deepcopy]
    cases hv : h[a]? with
    | none =>
      refine ⟨⟨[.atom ""], rfl, ?_⟩, by simp, by simp, ?_⟩
      · intro v hvv c hc
        simp at hvv
        subst hvv
        simp [childAddrs] at hc
      · intro _ ha
        have := List.getElem?_eq_none_iff.mp hv
        omega
    | some v =>
      cases v with
      | atom s =>
        refine ⟨⟨[.atom s], rfl, ?_⟩, by simp, by simp, ?_⟩
        · intro w hw c hc
          simp at hw
          subst hw
          simp [childAddrs] at hc
        · intro hwf ha
          simp only [denote]
          rw [List.getElem?_concat_length, hv]
      | pylist l =>
        obtain ⟨hsext, hsbounds, hsden⟩ := hcs h l
        have hvmem : PyVal.pylist l ∈ h := List.getElem?_mem hv
        refine ⟨?_, ?_, by simp, ?_⟩
        · refine hsext.snoc _ ?_
          intro c hc
          simp only [childAddrs] at hc
          obtain ⟨hb1, hb2⟩ := hsbounds c hc
          exact ⟨hb1, by omega⟩
        · exact hsext.length_le
        · intro hwf ha
          have hchild : ∀ b ∈ l, b < h.length := fun b hb =>
            wfHeap_spec hwf _ hvmem b (by simpa [childAddrs] using hb)
          simp only [denote]
          rw [List.getElem?_concat_length, hv]
          refine congrArg PyTree.tlist ?_
          have e1 : (copySeq (fun h' b => deepcopy h' f b) h l).2.map
                (fun r => denote ((copySeq (fun h' b => deepcopy h' f b) h l).1 ++
                  [PyVal.pylist (copySeq (fun h' b => deepcopy h' f b) h l).2]) f r) =
              (copySeq (fun h' b => deepcopy h' f b) h l).2.map
                (fun r => denote (copySeq (fun h' b => deepcopy h' f b) h l).1 f r) :=
            List.map_eq_map_iff.mpr (fun r hr =>
              denote_agree (wfHeap_copyExtends hwf hsext)
                (fun c hc => List.getElem?_append_left hc) f r (hsbounds r hr).2)
          rw [e1, hsden hwf hchild]
      | pydict d =>
        obtain ⟨hsext, hsbounds, hsden⟩ := hcp h d
        have hvmem : PyVal.pydict d ∈ h := List.getElem?_mem hv
        refine ⟨?_, ?_, by simp, ?_⟩
        · refine hsext.snoc _ ?_
          intro c hc
          simp only [childAddrs] at hc
          obtain ⟨q, hq, hqc⟩ := List.mem_map.mp hc
          obtain ⟨hb1, hb2⟩ := hsbounds q hq
          rw [← hqc]
          exact ⟨hb1, by omega⟩
        · exact hsext.length_le
        · intro hwf ha
          have hchild : ∀ p ∈ d, p.2 < h.length := fun p hp =>
            wfHeap_spec hwf _ hvmem p.2
              (by simp only [childAddrs]; exact List.mem_map_of_mem _ hp)
          simp only [denote]
          rw [List.getElem?_concat_length, hv]
          refine congrArg PyTree.tdict ?_
          have e1 : (copyPairs (fun h' b => deepcopy h' f b) h d).2.map
                (fun q => (q.1, denote ((copyPairs (fun h' b => deepcopy h' f b) h d).1 ++
                  [PyVal.pydict (copyPairs (fun h' b => deepcopy h' f b) h d).2]) f q.2)) =
              (copyPairs (fun h' b => deepcopy h' f b) h d).2.map
                (fun q => (q.1, denote (copyPairs (fun h' b => deepcopy h' f b) h d).1 f q.2)) :=
            List.map_eq_map_iff.mpr (fun q hq => by
              rw [denote_agree (wfHeap_copyExtends hwf hsext)
                (fun c hc => List.getElem?_append_left hc) f q.2 (hsbounds q hq).2])
          rw [e1, hsden hwf hchild]

theorem deepcopy_extends (h : List PyVal) (f a : Nat) :
    CopyExtends h (deepcopy h f a).1 :=
  (deepcopy_spec f h a).1

theorem deepcopy_root_ge (h : List PyVal) (f a : Nat) :
    h.length ≤ (deepcopy h f a).2 :=
  (deepcopy_spec f h a).2.1

theorem deepcopy_root_lt (h : List PyVal) (f a : Nat) :
    (deepcopy h f a).2 < (deepcopy h f a).1.length :=
  (deepcopy_spec f h a).2.2.1

theorem deepcopy_denote {h : List PyVal} {f a : Nat}
    (hwf : wfHeap h = true) (ha : a < h.length) :
    denote (deepcopy h f a).1 f (deepcopy h f a).2 = denote h f a :=
  (deepcopy_spec f h a).2.2.2 hwf ha

theorem get_feed_book_extends (h : List PyVal) (cache : FeedCache)
    (mid : String) (fuel : Nat) :
    CopyExtends h (get_feed_book h cache mid fuel).1 := by
  unfold get_feed_book
  cases hd : dget cache.books mid with
  | none => exact copyExtends_rfl h
  | some a =>
    by_cases ht : pyTruthy h[a]? = true
    · simp only [ht, if_true]
      exact deepcopy_extends h fuel a
    · simp only [ht, if_false, Bool.false_eq_true]
      exact copyExtends_rfl h

theorem get_feed_markets_extends (h : List PyVal) (cache : FeedCache)
    (fuel : Nat) : CopyExtends h (get_feed_markets h cache fuel).1 :=
  deepcopy_extends h fuel cache.catalogue_root

theorem get_feed_books_extends (h : List PyVal) (cache : FeedCache)
    (fuel : Nat) (mids : List String) :
    CopyExtends h (get_feed_books h cache fuel mids).1 := by
  induction mids generalizing h with
  | nil => exact copyExtends_rfl h
  | cons mid rest ih =>
    unfold get_feed_books
    cases hd : dget cache.books mid with
    | none => exact ih h
    | some a =>
      by_cases ht : pyTruthy h[a]? = true
      · simp only [ht, if_true]
        exact (deepcopy_extends h fuel a).trans (ih _)
      · simp only [ht, if_false, Bool.false_eq_true]
        exact ih h

theorem feedBookValue_eq {h : List PyVal} {cache : FeedCache}
    (fuel : Nat) (mid : String) (hwf : wfHeap h = true)
    (hb : ∀ p ∈ cache.books, p.2 < h.length) :
    feedBookValue h cache mid fuel = cachedBookView h cache mid fuel := by
  unfold feedBookValue get_feed_book cachedBookView
  cases hd : dget cache.books mid with
  | none => rfl
  | some a =>
    have ha : a < h.length := by
      obtain ⟨k', hk⟩ := dget_mem hd
      exact hb (k', a) hk
    by_cases ht : pyTruthy h[a]? = true
    · simp only [ht, if_true]
      rw [deepcopy_denote hwf ha]
    · simp only [ht, if_false, Bool.false_eq_true]

theorem cachedBookView_agree {h H : List PyVal} {cache : FeedCache}
    (hwf : wfHeap h = true)
    (hag : ∀ b, b < h.length → H[b]? = h[b]?)
    (hb : ∀ p ∈ cache.books, p.2 < h.length)
    (fuel : Nat) (mid : String) :
    cachedBookView H cache mid fuel = cachedBookView h cache mid fuel := by
  unfold cachedBookView
  cases hd : dget cache.books mid with
  | none => rfl
  | some a =>
    have ha : a < h.length := by
      obtain ⟨k', hk⟩ := dget_mem hd
      exact hb (k', a) hk
    dsimp only
    rw [hag a ha]
    by_cases ht : pyTruthy h[a]? = true
    · simp only [ht, if_true]
      rw [denote_agree hwf hag fuel a ha]
    · simp only [ht, if_false, Bool.false_eq_true]

theorem cachedBooksView_agree {h H : List PyVal} {cache : FeedCache}
    (hwf : wfHeap h = true)
    (hag : ∀ b, b < h.length → H[b]? = h[b]?)
    (hb : ∀ p ∈ cache.books, p.2 < h.length)
    (fuel : Nat) (mids : List String) :
    cachedBooksView H cache fuel mids = cachedBooksView h cache fuel mids := by
  induction mids with
  | nil => rfl
  | cons mid rest ih =>
    unfold cachedBooksView at ih ⊢
    rw [List.filterMap_cons, List.filterMap_cons,
      cachedBookView_agree hwf hag hb fuel mid, ih]

theorem feedMarketsValue_eq {h : List PyVal} {cache : FeedCache} (fuel : Nat)
    (hwf : wfHeap h = true) (hroot : cache.catalogue_root < h.length) :
    feedMarketsValue h cache fuel = denote h fuel cache.catalogue_root := by
  unfold feedMarketsValue get_feed_markets
  exact deepcopy_denote hwf hroot

theorem feedBooksValue_eq {h : List PyVal} {cache : FeedCache} (fuel : Nat)
    (hwf : wfHeap h = true) (hb : ∀ p ∈ cache.books, p.2 < h.length) :
    ∀ mids, feedBooksValue h cache fuel mids = cachedBooksView h cache fuel mids := by
  intro mids
  induction mids generalizing h with
  | nil => rfl
  | cons mid rest ih =>
    unfold feedBooksValue get_feed_books cachedBooksView
    cases hd : dget cache.books mid with
    | none =>
      rw [List.filterMap_cons]
      have hnone : cachedBookView h cache mid fuel = none := by
        unfold cachedBookView
        rw [hd]
      rw [hnone]
      exact ih hwf hb
    | some a =>
      have ha : a < h.length := by
        obtain ⟨k', hk⟩ := dget_mem hd
        exact hb (k', a) hk
      by_cases ht : pyTruthy h[a]? = true
      · simp only [ht, if_true]
        rw [List.filterMap_cons]
        have hsome : cachedBookView h cache mid fuel = some (denote h fuel a) := by
          unfold cachedBookView
          rw [hd]
          simp only [ht, if_true]
        rw [hsome]
        simp only [List.map_cons]
        have hwf1 : wfHeap (deepcopy h fuel a).1 = true :=
          wfHeap_copyExtends hwf (deepcopy_extends h fuel a)
        have hb1 : ∀ p ∈ cache.books, p.2 < (deepcopy h fuel a).1.length :=
          fun p hp => lt_of_lt_of_le (hb p hp) (deepcopy_extends h fuel a).length_le
        have hhead : denote (get_feed_books (deepcopy h fuel a).1 cache fuel rest).1
              fuel (deepcopy h fuel a).2 = denote h fuel a := by
          have e1 : denote (get_feed_books (deepcopy h fuel a).1 cache fuel rest).1
                fuel (deepcopy h fuel a).2 =
              denote (deepcopy h fuel a).1 fuel (deepcopy h fuel a).2 :=
            denote_agree hwf1
              (fun b hbb => (get_feed_books_extends _ cache fuel rest).lookup hbb)
              fuel _ (deepcopy_root_lt h fuel a)
          rw [e1, deepcopy_denote hwf ha]
        have htail : (get_feed_books (deepcopy h fuel a).1 cache fuel rest).2.map
              (fun r => denote (get_feed_books (deepcopy h fuel a).1 cache fuel rest).1 fuel r) =
            cachedBooksView h cache fuel rest := by
          have e2 := ih hwf1 hb1
          unfold feedBooksValue at e2
          rw [e2]
          exact cachedBooksView_agree hwf
            (fun b hbb => (deepcopy_extends h fuel a).lookup hbb) hb fuel rest
        rw [hhead, htail]
        rfl
      · simp only [ht, if_false, Bool.false_eq_true]
        rw [List.filterMap_cons]
        have hnone : cachedBookView h cache mid fuel = none := by
          unfold cachedBookView
          rw [hd]
          simp only [ht, if_false, Bool.false_eq_true]
        rw [hnone]
        exact ih hwf hb

/-- Overwriting any cell outside the original heap leaves the value of every
subsequent feed read unchanged. -/
theorem feed_reads_stable {h H : List PyVal} {cache : FeedCache}
    (hwf : wfHeap h = true) (he : CopyExtends h H)
    (hb : ∀ p ∈ cache.books, p.2 < h.length)
    (hroot : cache.catalogue_root < h.length)
    (m : Nat) (v : PyVal) (hm : h.length ≤ m)
    (hv : ∀ c ∈ childAddrs v, c < H.length) (fuel : Nat) :
    (∀ mid, feedBookValue (H.set m v) cache mid fuel =
      feedBookValue h cache mid fuel) ∧
    feedMarketsValue (H.set m v) cache fuel = feedMarketsValue h cache fuel ∧
    (∀ mids, feedBooksValue (H.set m v) cache fuel mids =
      feedBooksValue h cache fuel mids) := by
  have hagH : ∀ b, b < h.length → (H.set m v)[b]? = h[b]? := by
    intro b hbb
    have hne : m ≠ b := by omega
    rw [List.getElem?_set_ne hne]
    exact he.lookup hbb
  have hwfH : wfHeap H = true := wfHeap_copyExtends hwf he
  have hwfH' : wfHeap (H.set m v) = true := by
    refine wfHeap_set hwfH m v ?_
    intro c hc
    exact hv c hc
  have hlen' : h.length ≤ (H.set m v).length := by
    rw [List.length_set]
    exact he.length_le
  have hbH' : ∀ p ∈ cache.books, p.2 < (H.set m v).length :=
    fun p hp => lt_of_lt_of_le (hb p hp) hlen'
  have hrootH' : cache.catalogue_root < (H.set m v).length :=
    lt_of_lt_of_le hroot hlen'
  refine ⟨?_, ?_, ?_⟩
  · intro mid
    rw [feedBookValue_eq fuel mid hwfH' hbH', feedBookValue_eq fuel mid hwf hb]
    exact cachedBookView_agree hwf hagH hb fuel mid
  · rw [feedMarketsValue_eq fuel hwfH' hrootH', feedMarketsValue_eq fuel hwf hroot]
    exact denote_agree hwf hagH fuel _ hroot
  · intro mids
    rw [feedBooksValue_eq fuel hwfH' hbH' mids, feedBooksValue_eq fuel hwf hb mids]
    exact cachedBooksView_agree hwf hagH hb fuel mids

/-! ## C9 — feed reads -/

/-- C9 counterexample: `get_feed_book` does **not** return `None` exactly when
the market id is absent — an id that *is* cached but maps to an empty (falsy)
book dict also yields `None`, because the code tests `if book`, not
`if book is not None`. -/
theorem c9_counterexample :
    dget cache9.books "1.234" = some 0 ∧
    (get_feed_book h9 cache9 "1.234" 5).2 = none :=
  ⟨rfl, rfl⟩

/-- C9 (amended): every feed read returns a deep copy of the cached data and
leaves the engine's caches unchanged — each read only appends freshly
allocated cells to the heap (every pre-existing cell, in particular every
cache entry, is untouched), the returned structure denotes exactly the cached
value, and overwriting any cell outside the original heap (in particular any
cell of a returned copy) does not change the value of any subsequent feed
read; `get_feed_book` returns `None` exactly when the market id is absent
from the book cache **or is mapped to a falsy (empty) book**. -/
theorem c9_feed_reads_amended (h : List PyVal) (cache : FeedCache)
    (fuel : Nat) (mid : String)
    (hwf : wfHeap h = true)
    (hroot : cache.catalogue_root < h.length)
    (hb : ∀ p ∈ cache.books, p.2 < h.length) :
    ((get_feed_book h cache mid fuel).2 = none ↔
      dget cache.books mid = none ∨
        ∃ a, dget cache.books mid = some a ∧ pyTruthy h[a]? = false) ∧
    CopyExtends h (get_feed_book h cache mid fuel).1 ∧
    CopyExtends h (get_feed_markets h cache fuel).1 ∧
    (∀ mids, CopyExtends h (get_feed_books h cache fuel mids).1) ∧
    feedBookValue h cache mid fuel = cachedBookView h cache mid fuel ∧
    feedMarketsValue h cache fuel = denote h fuel cache.catalogue_root ∧
    (∀ mids, feedBooksValue h cache fuel mids = cachedBooksView h cache fuel mids) ∧
    (∀ a, dget cache.books mid = some a → pyTruthy h[a]? = true →
      ∃ r, (get_feed_book h cache mid fuel).2 = some r ∧ h.length ≤ r) ∧
    (∀ (H : List PyVal), CopyExtends h H →
      ∀ (m : Nat) (v : PyVal), h.length ≤ m →
        (∀ c ∈ childAddrs v, c < H.length) →
        (∀ mid2, feedBookValue (H.set m v) cache mid2 fuel =
          feedBookValue h cache mid2 fuel) ∧
        feedMarketsValue (H.set m v) cache fuel = feedMarketsValue h cache fuel ∧
        (∀ mids, feedBooksValue (H.set m v) cache fuel mids =
          feedBooksValue h cache fuel mids)) := by
  refine ⟨?_, get_feed_book_extends h cache mid fuel,
    get_feed_markets_extends h cache fuel,
    get_feed_books_extends h cache fuel,
    feedBookValue_eq fuel mid hwf hb,
    feedMarketsValue_eq fuel hwf hroot,
    feedBooksValue_eq fuel hwf hb,
    ?_, ?_⟩
  · unfold get_feed_book
    cases hd : dget cache.books mid with
    | none => simp
    | some a =>
      by_cases ht : pyTruthy h[a]? = true
      · simp [ht]
      · simp only [ht, if_false, Bool.false_eq_true]
        simp [ht]
  · intro a hd ht
    unfold get_feed_book
    rw [hd]
    simp only [ht, if_true]
    exact ⟨(deepcopy h fuel a).2, rfl, deepcopy_root_ge h fuel a⟩
  · intro H he m v hm hv
    exact feed_reads_stable hwf he hb hroot m v hm hv fuel

/-- Witness for C9 (amended) at a concrete well-formed heap and cache. -/
theorem c9_feed_reads_amended_witness :
    wfHeap h9w = true ∧
    cache9w.catalogue_root < h9w.length ∧
    (∀ p ∈ cache9w.books, p.2 < h9w.length) ∧
    CopyExtends h9w (get_feed_book h9w cache9w "1.234" 5).1 ∧
    feedBookValue h9w cache9w "1.234" 5 = cachedBookView h9w cache9w "1.234" 5 := by
  have h := c9_feed_reads_amended h9w cache9w 5 "1.234" (by decide) (by decide)
    (by decide)
  exact ⟨by decide, by decide, by decide, h.2.1, h.2.2.2.2.1⟩

end Chimera
